import Mathlib

/-!
Verification of the Brick Deal Hunter synchronization pipeline.

The definitions below are a shallow embedding of the pipeline's source
(`functions/src/index.ts`): catalog fetching with bounded pagination,
price-observation generation from an injected random stream, deal
evaluation, chunked batch writes, and the retention sweep.  JavaScript
numbers are modelled as rationals, `Math.round` as `fun q => Int.floor (q + 1/2)`
(round half toward positive infinity, as in JS), and `Math.random()` draws as
an explicit list of rationals threaded through the computation.
-/

namespace BrickDeal

/-- JavaScript `Math.round`: rounds to the nearest integer, halves toward
positive infinity. -/
def jsRound (q : ℚ) : ℤ :=
  Int.floor (q + 1 / 2)

/-- Availability states of a catalog item (source type `LegoSet.availability`). -/
inductive Availability : Type
  | available
  | coming_soon
  | sold_out
  | retiring_soon
deriving DecidableEq, BEq, Repr

/-- Source interface `LegoSet`: a canonical catalog item. -/
structure LegoSet : Type where
  setNumber : String
  name : String
  price : ℚ
  imageUrl : String
  url : String
  theme : Option String
  themeId : Option ℕ
  pieces : Option ℤ
  year : Option ℤ
  availability : Availability
deriving DecidableEq, Repr

/-- Source interface `PriceData`: one per-retailer price observation.
`lastUpdated` is a timestamp in milliseconds. -/
structure PriceData : Type where
  setNumber : String
  setName : String
  retailer : String
  currentPrice : ℚ
  originalPrice : ℚ
  url : String
  inStock : Bool
  lastUpdated : ℤ
  theme : Option String
  imageUrl : Option String
  pieces : Option ℤ
deriving DecidableEq, Repr

/-- Source interface `DealData`: a price observation plus `percentOff` and
`savings`. -/
structure DealData extends PriceData where
  percentOff : ℤ
  savings : ℚ
deriving DecidableEq, Repr

/-- The deal-evaluation step of the price job (source `updatePrices` /
`manualPriceUpdate` loop body, lines computing `percentOff` and the
conditional `saveDealToFirestore`): the observation yields a deal exactly
when `percentOff >= 10 && priceData.inStock`. -/
def evaluateDeal (p : PriceData) : Option DealData :=
  let percentOff := jsRound ((p.originalPrice - p.currentPrice) / p.originalPrice * 100)
  if 10 ≤ percentOff ∧ p.inStock = true then
    some { toPriceData := p
           percentOff := percentOff
           savings := (jsRound ((p.originalPrice - p.currentPrice) * 100) : ℚ) / 100 }
  else
    none

/-- The fixed 16-retailer enumeration of the price job. -/
def retailers : List String :=
  ["lego", "amazon", "walmart", "target", "best_buy",
   "kohls", "meijer", "fred_meyer", "gamestop",
   "entertainment_earth", "shop_disney", "toys_r_us",
   "barnes_noble", "sams_club", "costco", "walgreens"]

/-- JS `setNumber.replace("-1", "")`: removes the first occurrence of
`-1` from the character list. -/
def replaceFirstDashOne : List Char → List Char
  | [] => []
  | '-' :: '1' :: rest => rest
  | c :: rest => c :: replaceFirstDashOne rest

/-- `const cleanSetNum = setNumber.replace("-1", "")` in `getRetailerUrl`. -/
def cleanSetNum (s : String) : String :=
  String.mk (replaceFirstDashOne s.data)

/-- Source `getRetailerUrl`: per-retailer outbound URL templates; unknown
retailers yield the empty string. -/
def getRetailerUrl (retailer : String) (setNumber : String) : String :=
  let c := cleanSetNum setNumber
  match retailer with
  | "lego" => "https://www.lego.com/en-us/product/" ++ c
  | "amazon" => "https://www.amazon.com/s?k=LEGO+" ++ c
  | "walmart" => "https://www.walmart.com/search?q=LEGO+" ++ c
  | "target" => "https://www.target.com/s?searchTerm=LEGO+" ++ c
  | "best_buy" => "https://www.bestbuy.com/site/searchpage.jsp?st=LEGO+" ++ c
  | "kohls" => "https://www.kohls.com/search.jsp?search=LEGO+" ++ c
  | "meijer" => "https://www.meijer.com/search.html?searchTerm=LEGO+" ++ c
  | "fred_meyer" => "https://www.fredmeyer.com/search?query=LEGO+" ++ c
  | "gamestop" => "https://www.gamestop.com/search/?q=LEGO+" ++ c
  | "entertainment_earth" => "https://www.entertainmentearth.com/s/?query1=LEGO+" ++ c
  | "shop_disney" => "https://www.shopdisney.com/search?q=LEGO+" ++ c
  | "toys_r_us" => "https://www.toysrus.com/search?q=LEGO+" ++ c
  | "barnes_noble" => "https://www.barnesandnoble.com/s/LEGO+" ++ c
  | "sams_club" => "https://www.samsclub.com/s/LEGO+" ++ c
  | "costco" => "https://www.costco.com/CatalogSearch?dept=All&keyword=LEGO+" ++ c
  | "walgreens" => "https://www.walgreens.com/search/results.jsp?Ntt=LEGO+" ++ c
  | _ => ""

/-- One `Math.random()` draw from the injected random stream: pops the head
(a rational in `[0, 1)`), yielding `0` on an exhausted stream. -/
def randNext (g : List ℚ) : ℚ × List ℚ :=
  match g with
  | [] => (0, [])
  | r :: rest => (r, rest)

/-- Source `generateSimulatedPrice` with the random source injected as an
explicit stream.  Mirrors the source's draw order: for a non-`"lego"`
retailer, one draw for the 70% first-discount chance (plus one for its
magnitude when it fires), one draw for the 10% big-discount chance (plus one
for its magnitude when it fires, overriding the first); then — only when the
item's availability is `available`, because JS `&&` short-circuits — one draw
for the 85% in-stock chance. -/
def generateSimulatedPrice (set : LegoSet) (retailer : String) (now : ℤ)
    (g : List ℚ) : PriceData × List ℚ :=
  let originalPrice := set.price
  let dg : ℤ × List ℚ :=
    if retailer ≠ "lego" then
      let r1 := (randNext g).1
      let g1 := (randNext g).2
      let d0 : ℤ × List ℚ :=
        if r1 < 7 / 10 then
          (Int.floor ((randNext g1).1 * 31) + 10, (randNext g1).2)
        else
          (0, g1)
      let r2 := (randNext d0.2).1
      let g2 := (randNext d0.2).2
      if r2 < 1 / 10 then
        (Int.floor ((randNext g2).1 * 21) + 40, (randNext g2).2)
      else
        (d0.1, g2)
    else
      (0, g)
  let currentPrice := (jsRound (originalPrice * (1 - (dg.1 : ℚ) / 100) * 100) : ℚ) / 100
  let sg : Bool × List ℚ :=
    if set.availability = Availability.available then
      (decide ((15 : ℚ) / 100 < (randNext dg.2).1), (randNext dg.2).2)
    else
      (false, dg.2)
  ({ setNumber := set.setNumber
     setName := set.name
     retailer := retailer
     currentPrice := currentPrice
     originalPrice := originalPrice
     url := getRetailerUrl retailer set.setNumber
     inStock := sg.1
     lastUpdated := now
     theme := set.theme
     imageUrl := some set.imageUrl
     pieces := set.pieces }, sg.2)

/-- Inner retailer loop of the price job: for each retailer, generate an
observation, record it as a price write, and record a deal write when
`evaluateDeal` qualifies it.  Returns (prices written, deals written,
remaining random stream). -/
def runRetailers (set : LegoSet) (now : ℤ) :
    List String → List ℚ → List PriceData × List DealData × List ℚ
  | [], g => ([], [], g)
  | r :: rs, g =>
    let pg := generateSimulatedPrice set r now g
    let rest := runRetailers set now rs pg.2
    (pg.1 :: rest.1,
     (match evaluateDeal pg.1 with
      | some d => d :: rest.2.1
      | none => rest.2.1),
     rest.2.2)

/-- Outer set loop of the price job. -/
def runSets (now : ℤ) :
    List LegoSet → List ℚ → List PriceData × List DealData × List ℚ
  | [], g => ([], [], g)
  | s :: ss, g =>
    let first := runRetailers s now retailers g
    let rest := runSets now ss first.2.2
    (first.1 ++ rest.1, first.2.1 ++ rest.2.1, rest.2.2)

/-- Source scheduled job `updatePrices`: processes `sets.slice(0, 100)` over
the fixed retailer enumeration, returning the price writes and deal writes
of the run. -/
def updatePrices (sets : List LegoSet) (now : ℤ) (g : List ℚ) :
    List PriceData × List DealData :=
  ((runSets now (sets.take 100) g).1, (runSets now (sets.take 100) g).2.1)

/-- The per-transaction chunk limit used by `saveLegoSetsCatalog` and
`cleanOldDeals` (`const batchSize = 450`). -/
def batchSize : ℕ := 450

/-- Fuel-driven chunking loop, mirroring
`for (let i = 0; i < xs.length; i += batchSize) xs.slice(i, i + batchSize)`.
The fuel only forces structural recursion; `chunksOf` supplies enough of it. -/
def chunksOfAux {α : Type} : ℕ → List α → List (List α)
  | 0, _ => []
  | _ + 1, [] => []
  | fuel + 1, x :: xs => (x :: xs).take batchSize :: chunksOfAux fuel ((x :: xs).drop batchSize)

/-- The chunk partition committed batch-by-batch by the bulk writes. -/
def chunksOf {α : Type} (l : List α) : List (List α) :=
  chunksOfAux (l.length + 1) l

/-- Source `saveLegoSetsCatalog`, viewed as the sequence of committed batches:
each chunk of at most `batchSize` sets is committed as one batched
merge-write. -/
def saveLegoSetsCatalog (sets : List LegoSet) : List (List LegoSet) :=
  chunksOf sets

/-- The retention cutoff of `cleanOldDeals`:
`Date.now() - 24 * 60 * 60 * 1000`. -/
def dealCutoff (now : ℤ) : ℤ :=
  now - 24 * 60 * 60 * 1000

/-- Source `cleanOldDeals`: queries the deal store for records with
`lastUpdated < cutoff` and deletes them in chunked batches.  Returns the
surviving store contents and the sequence of committed delete batches. -/
def cleanOldDeals (now : ℤ) (deals : List DealData) :
    List DealData × List (List DealData) :=
  let old := deals.filter (fun d => decide (d.lastUpdated < dealCutoff now))
  (deals.filter (fun d => ! decide (d.lastUpdated < dealCutoff now)), chunksOf old)

/-- A raw entry of one Rebrickable API page (`data.results` element).  A
missing image URL is modelled as the empty string (falsy in JS). -/
structure RawSet : Type where
  set_num : String
  name : String
  set_img_url : String
  num_parts : ℤ
  theme_id : ℕ
  year : ℤ
deriving DecidableEq, Repr

/-- Outcome of one page request, as the source's loop distinguishes them:
a failure (`!response.ok` or a thrown transport error, both of which
`break`) or a success with a results array and a next-page cursor flag. -/
inductive PageOutcome : Type
  | failure
  | success (results : List RawSet) (next : Bool)
deriving DecidableEq, Repr

/-- Source `THEME_NAMES` static lookup table. -/
def themeNames (id : ℕ) : Option String :=
  match id with
  | 158 => some "Star Wars"
  | 1 => some "Technic"
  | 252 => some "Ideas"
  | 435 => some "Architecture"
  | 52 => some "City"
  | 577 => some "Marvel Super Heroes"
  | 494 => some "Friends"
  | 246 => some "Creator"
  | 576 => some "DC Super Heroes"
  | 504 => some "Harry Potter"
  | 592 => some "Ninjago"
  | 610 => some "Speed Champions"
  | 209 => some "Disney"
  | 720 => some "Icons"
  | 667 => some "Botanical Collection"
  | 608 => some "Super Mario"
  | 573 => some "Minecraft"
  | 697 => some "Art"
  | 503 => some "Duplo"
  | _ => none

/-- JS `toLowerCase`, character by character. -/
def lowerStr (s : String) : String :=
  String.mk (s.data.map Char.toLower)

/-- Whether `needle` matches at the head of `hay`. -/
def headMatch : List Char → List Char → Bool
  | [], _ => true
  | _ :: _, [] => false
  | a :: as, b :: bs => a == b && headMatch as bs

/-- Whether `needle` occurs as a contiguous substring of `hay`
(JS `String.includes`). -/
def hasSub (needle : List Char) : List Char → Bool
  | [] => needle.isEmpty
  | c :: rest => headMatch needle (c :: rest) || hasSub needle rest

/-- `set.name.toLowerCase().includes("minifig")`. -/
def containsMinifig (name : String) : Bool :=
  hasSub "minifig".data (lowerStr name).data

/-- Per-entry filtering and normalization of `fetchFromRebrickable`'s inner
loop: skip entries without an image or with fewer than 20 pieces, skip
minifigure-pack lookalikes, estimate the price at `round(pieces * 0.11)`
with fallback 20 when the estimate is non-positive, and build the catalog
item with availability hardcoded to `available`. -/
def normalizeSet (raw : RawSet) : Option LegoSet :=
  if raw.set_img_url = "" ∨ raw.num_parts < 20 then
    none
  else if raw.num_parts < 50 ∧ containsMinifig raw.name = true then
    none
  else
    let estimatedPrice := jsRound ((raw.num_parts : ℚ) * (11 / 100))
    some { setNumber := raw.set_num
           name := raw.name
           price := if 0 < estimatedPrice then (estimatedPrice : ℚ) else 20
           imageUrl := raw.set_img_url
           url := "https://www.lego.com/en-us/product/" ++ cleanSetNum raw.set_num
           theme := some ((themeNames raw.theme_id).getD "LEGO")
           themeId := some raw.theme_id
           pieces := some raw.num_parts
           year := some raw.year
           availability := Availability.available }

/-- Pagination loop of `fetchFromRebrickable` (`while (page <= maxPages)`),
with the upstream injected as a function from page number to outcome.
Returns the accumulated items and the number of page requests issued.
A failed page, an empty results array, or a missing next cursor each stop
the loop after that request; the loop never raises. -/
def fetchLoop (u : ℕ → PageOutcome) : ℕ → ℕ → List LegoSet × ℕ
  | 0, _ => ([], 0)
  | fuel + 1, page =>
    match u page with
    | PageOutcome.failure => ([], 1)
    | PageOutcome.success results next =>
      if results.length = 0 then
        ([], 1)
      else
        let items := results.filterMap normalizeSet
        if next then
          let rest := fetchLoop u fuel (page + 1)
          (items ++ rest.1, rest.2 + 1)
        else
          (items, 1)

/-- Source `fetchFromRebrickable`: pages start at 1, `maxPages = 10`. -/
def fetchFromRebrickable (u : ℕ → PageOutcome) : List LegoSet × ℕ :=
  fetchLoop u 10 1

/-- The normalized contribution of one successful page (empty for a failed
page). -/
def pageItems (u : ℕ → PageOutcome) (page : ℕ) : List LegoSet :=
  match u page with
  | PageOutcome.failure => []
  | PageOutcome.success results _ => results.filterMap normalizeSet

/-- The availability predicate of `getLegoSetsCatalog`'s query:
`where("availability", "in", ["available", "retiring_soon"])`. -/
def availableFilter (a : Availability) : Bool :=
  a == Availability.available || a == Availability.retiring_soon

/-- A stored document as a partial field assignment. -/
def DocRec (α : Type) : Type :=
  String → Option α

/-- A document store collection: a partial map from document id to document. -/
def Store (α : Type) : Type :=
  String → Option (DocRec α)

/-- Modelled from the spec: the Firestore `set(docRef, data, { merge: true })`
write used by `saveLegoSetsCatalog`, `savePriceToFirestore` and
`saveDealToFirestore` — the store engine itself is not part of src/.  Per
the spec, each batched write commits "with merge semantics (existing fields
not present in the new record are preserved)": fields present in the new
record overwrite, fields absent from it keep their stored value, and other
document ids are untouched. -/
def mergeSet {α : Type} (store : Store α) (key : String) (newDoc : DocRec α) :
    Store α :=
  fun k =>
    if k = key then
      some (fun f =>
        match newDoc f with
        | some v => some v
        | none =>
          match store key with
          | some old => old f
          | none => none)
    else
      store k

/-- Source `savePriceToFirestore`'s document id: `setNumber + "_" + retailer`. -/
def priceDocId (p : PriceData) : String :=
  p.setNumber ++ "_" ++ p.retailer

/-- Source `savePriceToFirestore` against a store state: a merge-upsert at
the derived document id. -/
def savePriceToFirestore {α : Type} (store : Store α) (p : PriceData)
    (doc : DocRec α) : Store α :=
  mergeSet store (priceDocId p) doc

/-! Concrete fixtures used by counterexamples and witnesses. -/

/-- A raw Rebrickable entry with an image and exactly 20 pieces: it passes
the fetcher's filters, and its estimated price is `round(20 * 0.11) = 2`. -/
def rawSmall : RawSet :=
  { set_num := "942-1", name := "Tiny Set", set_img_url := "img",
    num_parts := 20, theme_id := 1, year := 2024 }

/-- A one-page upstream serving only `rawSmall`. -/
def upstreamSmall : ℕ → PageOutcome
  | 1 => PageOutcome.success [rawSmall] false
  | _ => PageOutcome.failure

/-- The catalog item `fetchFromRebrickable` produces from `rawSmall`. -/
def itemSmall : LegoSet :=
  { setNumber := "942-1", name := "Tiny Set", price := 2, imageUrl := "img",
    url := "https://www.lego.com/en-us/product/942", theme := some "Technic",
    themeId := some 1, pieces := some 20, year := some 2024,
    availability := Availability.available }

/-- An upstream whose pages 1 and 2 succeed with a next cursor and whose
page 3 fails. -/
def uTrunc : ℕ → PageOutcome
  | 1 => PageOutcome.success [rawSmall] true
  | 2 => PageOutcome.success [rawSmall] true
  | _ => PageOutcome.failure

/-- Catalog item A of the seeded scenario: reference price 40, available. -/
def setA : LegoSet :=
  { setNumber := "A", name := "Set A", price := 40, imageUrl := "", url := "",
    theme := none, themeId := none, pieces := none, year := none,
    availability := Availability.available }

/-- Catalog item B of the seeded scenario: reference price 30, available. -/
def setB : LegoSet :=
  { setNumber := "B", name := "Set B", price := 30, imageUrl := "", url := "",
    theme := none, themeId := none, pieces := none, year := none,
    availability := Availability.available }

/-- Seed stream forcing the generator: for item A, every non-`"lego"`
retailer draws no first-tier discount (0.9), fires the big-discount branch
(0.05) at exactly 50% (0.5), and is in stock (0.9); the `"lego"` retailer
consumes only its stock draw.  For item B every retailer draws no discount
and in stock. -/
def seedC3 : List ℚ :=
  [9 / 10]
    ++ (List.replicate 15 [(9 : ℚ) / 10, 5 / 100, 1 / 2, 9 / 10]).flatten
    ++ [(9 : ℚ) / 10]
    ++ (List.replicate 15 [(9 : ℚ) / 10, 9 / 10, 9 / 10]).flatten

/-- A fixed price observation: 50% off and in stock. -/
def pObs : PriceData :=
  { setNumber := "10305-1", setName := "Lion Knights Castle", retailer := "amazon",
    currentPrice := 50, originalPrice := 100, url := "", inStock := true,
    lastUpdated := 0, theme := none, imageUrl := none, pieces := none }

/-- A throwaway catalog item used to exercise the chunking bound. -/
def dummySet : LegoSet :=
  { setNumber := "X", name := "X", price := 20, imageUrl := "", url := "",
    theme := none, themeId := none, pieces := none, year := none,
    availability := Availability.available }

/-- A deal whose `lastUpdated` lies beyond the retention horizon of time 0. -/
def dummyDeal : DealData :=
  { setNumber := "X", setName := "X", retailer := "amazon", currentPrice := 10,
    originalPrice := 20, url := "", inStock := true, lastUpdated := -1000000000,
    theme := none, imageUrl := none, pieces := none, percentOff := 50, savings := 10 }

/-- Stored document for the merge-upsert witness. -/
def docOld : DocRec ℤ := fun f => if f = "pieces" then some 6167 else none

/-- Newly written document for the merge-upsert witness. -/
def docNew : DocRec ℤ := fun f => if f = "currentPrice" then some 380 else none

/-- Store state for the merge-upsert witness. -/
def storeW : Store ℤ := fun k => if k = "10307-1_amazon" then some docOld else none

/-!
The Batteries rational operations are `@[irreducible]`; they are made
semireducible here (locally, for this file) so that `decide` and `rfl` can
evaluate the model on concrete inputs.  This affects elaboration
transparency only; the kernel is unaffected.
-/

attribute [local semireducible] Rat.add Rat.mul Rat.inv Rat.sub

/-! Helper lemmas. -/

/-- The deal writes of the retailer loop are exactly the qualifying
observations among its price writes. -/
lemma runRetailers_deals_eq (set : LegoSet) (now : ℤ) :
    ∀ (rs : List String) (g : List ℚ),
      (runRetailers set now rs g).2.1
        = (runRetailers set now rs g).1.filterMap evaluateDeal := by
  intro rs
  induction rs with
  | nil => intro g; rfl
  | cons r rs ih =>
    intro g
    simp only [runRetailers, List.filterMap_cons]
    cases h : evaluateDeal (generateSimulatedPrice set r now g).1 with
    | none => simp [h, ih]
    | some d => simp [h, ih]

/-- The deal writes of the set loop are exactly the qualifying observations
among its price writes. -/
lemma runSets_deals_eq (now : ℤ) :
    ∀ (sets : List LegoSet) (g : List ℚ),
      (runSets now sets g).2.1 = (runSets now sets g).1.filterMap evaluateDeal := by
  intro sets
  induction sets with
  | nil => intro g; rfl
  | cons s ss ih =>
    intro g
    simp only [runSets, List.filterMap_append]
    rw [runRetailers_deals_eq, ih]

/-- Every chunk produced by the chunking loop has at most `batchSize`
elements. -/
lemma chunksOfAux_length_le {α : Type} :
    ∀ (fuel : ℕ) (l c : List α), c ∈ chunksOfAux fuel l → c.length ≤ batchSize := by
  intro fuel
  induction fuel with
  | zero => intro l c h; simp [chunksOfAux] at h
  | succ n ih =>
    intro l c h
    cases l with
    | nil => simp [chunksOfAux] at h
    | cons x xs =>
      simp only [chunksOfAux, List.mem_cons] at h
      rcases h with h | h
      · subst h; exact List.length_take_le _ _
      · exact ih _ _ h

/-- With enough fuel, flattening the chunks recovers the input list. -/
lemma chunksOfAux_flatten {α : Type} :
    ∀ (fuel : ℕ) (l : List α), l.length < fuel → (chunksOfAux fuel l).flatten = l := by
  intro fuel
  induction fuel with
  | zero => intro l h; exact absurd h (Nat.not_lt_zero _)
  | succ n ih =>
    intro l h
    cases l with
    | nil => rfl
    | cons x xs =>
      simp only [chunksOfAux, List.flatten_cons]
      rw [ih _ ?_]
      · exact List.take_append_drop _ _
      · rw [List.length_drop]
        simp only [List.length_cons, batchSize] at h ⊢
        omega

/-- The pagination loop issues at most `fuel` page requests. -/
lemma fetchLoop_requests_le (u : ℕ → PageOutcome) :
    ∀ (fuel page : ℕ), (fetchLoop u fuel page).2 ≤ fuel := by
  intro fuel
  induction fuel with
  | zero => intro page; exact Nat.le_refl 0
  | succ n ih =>
    intro page
    rcases h : u page with _ | ⟨results, next⟩
    · simp [fetchLoop, h]
    · by_cases hr : results.length = 0
      · simp [fetchLoop, h, hr]
      · by_cases hn : next
        · simp only [fetchLoop, h, if_neg hr, hn, if_pos]
          exact Nat.succ_le_succ (ih (page + 1))
        · simp [fetchLoop, h, hr, hn]

/-- Every item the pagination loop returns comes from `normalizeSet` on some
raw entry. -/
lemma fetchLoop_mem_normalized (u : ℕ → PageOutcome) :
    ∀ (fuel page : ℕ) (s : LegoSet), s ∈ (fetchLoop u fuel page).1 →
      ∃ raw, normalizeSet raw = some s := by
  intro fuel
  induction fuel with
  | zero => intro page s h; simp [fetchLoop] at h
  | succ n ih =>
    intro page s h
    rw [fetchLoop] at h
    rcases hu : u page with _ | ⟨results, next⟩ <;> rw [hu] at h <;> dsimp only at h
    · simp at h
    · split_ifs at h with hr hn
      · simp at h
      · rcases List.mem_append.mp h with h' | h'
        · obtain ⟨raw, _, hraw⟩ := List.mem_filterMap.mp h'
          exact ⟨raw, hraw⟩
        · exact ih (page + 1) s h'
      · obtain ⟨raw, _, hraw⟩ := List.mem_filterMap.mp h
        exact ⟨raw, hraw⟩

/-- Facts about any item `normalizeSet` produces: availability is hardcoded
to `available`, and the reference price is at least 2 (the raw entry passed
the 20-piece filter, so `round(pieces * 0.11) ≥ round(2.2) = 2 > 0` and the
non-positive fallback never fires). -/
lemma normalizeSet_some {raw : RawSet} {s : LegoSet} (h : normalizeSet raw = some s) :
    s.availability = Availability.available ∧ 2 ≤ s.price := by
  unfold normalizeSet at h
  by_cases h1 : raw.set_img_url = "" ∨ raw.num_parts < 20
  · rw [if_pos h1] at h
    exact absurd h (by simp)
  · rw [if_neg h1] at h
    by_cases h2 : raw.num_parts < 50 ∧ containsMinifig raw.name = true
    · rw [if_pos h2] at h
      exact absurd h (by simp)
    · rw [if_neg h2] at h
      have hs := Option.some.inj h
      subst hs
      refine ⟨rfl, ?_⟩
      push_neg at h1
      have h20 : (20 : ℤ) ≤ raw.num_parts := h1.2
      have hest : (2 : ℤ) ≤ jsRound ((raw.num_parts : ℚ) * (11 / 100)) := by
        unfold jsRound
        rw [Int.le_floor]
        have hc : (20 : ℚ) ≤ (raw.num_parts : ℚ) := by exact_mod_cast h20
        have hm : (20 : ℚ) * (11 / 100) ≤ (raw.num_parts : ℚ) * (11 / 100) :=
          mul_le_mul_of_nonneg_right hc (by norm_num)
        push_cast
        linarith
      show (2 : ℚ) ≤ if 0 < jsRound ((raw.num_parts : ℚ) * (11 / 100))
          then (jsRound ((raw.num_parts : ℚ) * (11 / 100)) : ℚ) else 20
      rw [if_pos (by omega)]
      exact_mod_cast hest

/-- The pagination loop, run from `page` with a failing page `p` ahead of it
and only successful non-empty pages with next cursors before `p`, returns
exactly the concatenation of the normalized pages `page, ..., p - 1`. -/
lemma fetchLoop_upto_failure (u : ℕ → PageOutcome) :
    ∀ (fuel page p : ℕ), page ≤ p → p < page + fuel →
      u p = PageOutcome.failure →
      (∀ q, page ≤ q → q < p → ∃ rs, u q = PageOutcome.success rs true ∧ rs ≠ []) →
      (fetchLoop u fuel page).1
        = ((List.range' page (p - page)).map (pageItems u)).flatten := by
  intro fuel
  induction fuel with
  | zero => intro page p h1 h2; omega
  | succ n ih =>
    intro page p hle hlt hfail hok
    by_cases hpq : page = p
    · subst hpq
      simp [fetchLoop, hfail]
    · have hlt2 : page < p := Nat.lt_of_le_of_ne hle hpq
      obtain ⟨rs, hu, hne⟩ := hok page (Nat.le_refl _) hlt2
      have hlen : ¬ rs.length = 0 := by
        simpa using hne
      have hrec := ih (page + 1) p hlt2 (by omega) hfail
        (fun q hq1 hq2 => hok q (by omega) hq2)
      have hshape : p - page = (p - (page + 1)) + 1 := by omega
      rw [fetchLoop, hu]
      simp only [if_neg hlen, if_pos rfl]
      rw [hshape, List.range'_succ, List.map_cons, List.flatten_cons, hrec]
      simp [pageItems, hu]

/-! Claim theorems. -/

/-- C1: for every price observation processed by the price job, a deal
record is written for that (item, retailer) pair in that run if and only if
`round((reference - current) / reference * 100) >= 10` and the observation's
stock flag is true; the written deal carries that percent-off and
`savings = round(reference - current, 2 decimals)`; and the deals written by
`updatePrices` are exactly the qualifying observations among its price
writes. -/
theorem deal_written_iff_qualifies (p : PriceData) :
    ((evaluateDeal p).isSome = true ↔
      (10 ≤ jsRound ((p.originalPrice - p.currentPrice) / p.originalPrice * 100)
        ∧ p.inStock = true))
    ∧ (∀ d, evaluateDeal p = some d →
        d.toPriceData = p
          ∧ d.percentOff = jsRound ((p.originalPrice - p.currentPrice) / p.originalPrice * 100)
          ∧ d.savings = (jsRound ((p.originalPrice - p.currentPrice) * 100) : ℚ) / 100)
    ∧ (∀ (sets : List LegoSet) (now : ℤ) (g : List ℚ),
        (updatePrices sets now g).2 = (updatePrices sets now g).1.filterMap evaluateDeal) := by
  refine ⟨?_, ?_, ?_⟩
  · unfold evaluateDeal
    dsimp only
    split_ifs with h
    · simp [h]
    · simp [h]
  · intro d hd
    unfold evaluateDeal at hd
    dsimp only at hd
    split_ifs at hd with h
    have := Option.some.inj hd
    subst this
    exact ⟨rfl, rfl, rfl⟩
  · intro sets now g
    unfold updatePrices
    exact runSets_deals_eq now (sets.take 100) g

/-- C1 witness: a concrete 50%-off in-stock observation qualifies and the
theorem applies to it. -/
theorem deal_written_iff_qualifies_witness :
    (evaluateDeal pObs).isSome = true
      ∧ (10 ≤ jsRound ((pObs.originalPrice - pObs.currentPrice) / pObs.originalPrice * 100)
          ∧ pObs.inStock = true) :=
  ⟨(deal_written_iff_qualifies pObs).1.mpr ⟨by decide, rfl⟩, by decide, rfl⟩

set_option maxRecDepth 8000 in
/-- C2 counterexample: a raw entry with exactly 20 pieces passes the
fetcher's filters, yet the stored reference price is `round(20 * 0.11) = 2`,
which is below 20 — the minimum-20 fallback fires only when the estimate is
non-positive, which the 20-piece filter makes impossible. -/
theorem estimated_price_below_twenty :
    ∃ s ∈ (fetchFromRebrickable upstreamSmall).1, s.price < 20 := by
  decide

/-- C2 amended: for every raw entry that passes the fetcher's filters (piece
count at least 20), the estimated reference price stored on the resulting
catalog item is at least 2 currency units. -/
theorem estimated_price_at_least_two (u : ℕ → PageOutcome) (s : LegoSet)
    (h : s ∈ (fetchFromRebrickable u).1) :
    2 ≤ s.price := by
  obtain ⟨raw, hraw⟩ := fetchLoop_mem_normalized u 10 1 s h
  exact (normalizeSet_some hraw).2

set_option maxRecDepth 8000 in
/-- C2 amended witness: the item fetched from the 20-piece raw entry. -/
theorem estimated_price_at_least_two_witness :
    itemSmall ∈ (fetchFromRebrickable upstreamSmall).1 ∧ 2 ≤ itemSmall.price :=
  ⟨by decide, estimated_price_at_least_two upstreamSmall itemSmall (by decide)⟩

set_option maxRecDepth 40000 in
/-- C3: with the random source seeded so that item A always draws a 50%
discount and in-stock while item B always draws a 0% discount, the price job
over the catalog [A, B] and the fixed 16-retailer enumeration writes exactly
15 deals for item A (all 16 retailers except `"lego"`, which is always
priced at the reference price) and 0 deals for item B. -/
theorem seeded_price_job_deal_counts :
    ((updatePrices [setA, setB] 0 seedC3).2.filter (fun d => d.setNumber == "A")).length = 15
      ∧ ((updatePrices [setA, setB] 0 seedC3).2.filter (fun d => d.setNumber == "B")).length = 0
      ∧ ((updatePrices [setA, setB] 0 seedC3).2.filter (fun d => d.retailer == "lego")).length = 0
      ∧ (updatePrices [setA, setB] 0 seedC3).2.length = 15 := by
  decide

/-- C4: if every page before `p` succeeds with a non-empty results array and
a next cursor, and the request for page `p` (within the 10-page ceiling)
fails, then the fetch returns the items accumulated from pages 1 to `p - 1`
as a normal value — pagination stops at the failed page and no error is
raised to the caller. -/
theorem fetch_truncates_on_page_failure (u : ℕ → PageOutcome) (p : ℕ)
    (hp1 : 1 ≤ p) (hp10 : p ≤ 10) (hfail : u p = PageOutcome.failure)
    (hok : ∀ q, 1 ≤ q → q < p → ∃ rs, u q = PageOutcome.success rs true ∧ rs ≠ []) :
    (fetchFromRebrickable u).1 = ((List.range' 1 (p - 1)).map (pageItems u)).flatten :=
  fetchLoop_upto_failure u 10 1 p hp1 (by omega) hfail hok

/-- C4 witness: an upstream failing at page 3 yields the two successful
pages' items. -/
theorem fetch_truncates_on_page_failure_witness :
    uTrunc 3 = PageOutcome.failure
      ∧ (fetchFromRebrickable uTrunc).1 = ((List.range' 1 2).map (pageItems uTrunc)).flatten := by
  refine ⟨rfl, ?_⟩
  have h := fetch_truncates_on_page_failure uTrunc 3 (by omega) (by omega) rfl ?_
  · exact h
  · intro q h1 h2
    interval_cases q
    · exact ⟨[rawSmall], rfl, by simp⟩
    · exact ⟨[rawSmall], rfl, by simp⟩

/-- C5: the retention sweep keeps exactly the deals whose `lastUpdated` is
not strictly older than `now` minus the 24-hour horizon and deletes the
rest; running it again immediately at the same time keeps the store
unchanged and commits no delete batch. -/
theorem retention_sweep_exact_and_idempotent (now : ℤ) (deals : List DealData) :
    (∀ d, d ∈ (cleanOldDeals now deals).1 ↔
      (d ∈ deals ∧ ¬ d.lastUpdated < now - 24 * 60 * 60 * 1000))
      ∧ (cleanOldDeals now (cleanOldDeals now deals).1).1 = (cleanOldDeals now deals).1
      ∧ (cleanOldDeals now (cleanOldDeals now deals).1).2 = [] := by
  refine ⟨?_, ?_, ?_⟩
  · intro d
    simp [cleanOldDeals, dealCutoff, List.mem_filter]
  · simp [cleanOldDeals, List.filter_filter]
  · have hnil : (((cleanOldDeals now deals).1).filter
        (fun d => decide (d.lastUpdated < dealCutoff now))) = [] := by
      simp [cleanOldDeals, List.filter_filter]
    simp only [cleanOldDeals] at hnil ⊢
    rw [hnil]
    rfl

set_option maxRecDepth 100000 in
/-- C6: the chunked batch writes (catalog upserts and sweep deletions alike)
never commit a batch of more than 450 records, every input record appears in
exactly one chunk (the chunks concatenate back to the input), and 1000 items
yield exactly 3 chunks. -/
theorem batched_writes_chunk_bound :
    (∀ (sets : List LegoSet),
      (∀ c ∈ saveLegoSetsCatalog sets, c.length ≤ 450)
        ∧ (saveLegoSetsCatalog sets).flatten = sets)
      ∧ (∀ (now : ℤ) (deals : List DealData),
          (∀ c ∈ (cleanOldDeals now deals).2, c.length ≤ 450)
            ∧ ((cleanOldDeals now deals).2).flatten
                = deals.filter (fun d => decide (d.lastUpdated < now - 24 * 60 * 60 * 1000)))
      ∧ (saveLegoSetsCatalog (List.replicate 1000 dummySet)).length = 3
      ∧ 3 ≤ (saveLegoSetsCatalog (List.replicate 1000 dummySet)).length := by
  refine ⟨?_, ?_, by decide, by decide⟩
  · intro sets
    exact ⟨fun c hc => chunksOfAux_length_le _ _ c hc,
      chunksOfAux_flatten _ sets (Nat.lt_succ_self _)⟩
  · intro now deals
    exact ⟨fun c hc => chunksOfAux_length_le _ _ c hc,
      chunksOfAux_flatten _ _ (Nat.lt_succ_self _)⟩

/-- C6 witness: concrete chunks of the catalog write and of the sweep's
delete batches are within the bound. -/
theorem batched_writes_chunk_bound_witness :
    ([dummySet] ∈ saveLegoSetsCatalog [dummySet] ∧ [dummySet].length ≤ 450)
      ∧ ([dummyDeal] ∈ (cleanOldDeals 0 [dummyDeal]).2 ∧ [dummyDeal].length ≤ 450) :=
  ⟨⟨by decide, (batched_writes_chunk_bound.1 [dummySet]).1 [dummySet] (by decide)⟩,
   ⟨by decide, (batched_writes_chunk_bound.2.1 0 [dummyDeal]).1 [dummyDeal] (by decide)⟩⟩

/-- C7: for every upstream response sequence — including one that always
reports a next cursor and non-empty results — the fetch terminates after at
most 10 page requests. -/
theorem fetch_at_most_ten_requests (u : ℕ → PageOutcome) :
    (fetchFromRebrickable u).2 ≤ 10 :=
  fetchLoop_requests_le u 10 1

/-- C8: a merge-upsert under an existing key preserves the stored fields
absent from the new record, overwrites the fields present in it, and leaves
every other key untouched (store semantics modelled from the spec). -/
theorem merge_upsert_preserves_absent_fields {α : Type} (store : Store α)
    (key k f : String) (newDoc old : DocRec α)
    (hold : store key = some old) (hk : k ≠ key) :
    ∃ m, mergeSet store key newDoc key = some m
      ∧ (newDoc f = none → m f = old f)
      ∧ (newDoc f ≠ none → m f = newDoc f)
      ∧ mergeSet store key newDoc k = store k := by
  refine ⟨fun fld =>
      match newDoc fld with
      | some v => some v
      | none =>
        match store key with
        | some o => o fld
        | none => none, ?_, ?_, ?_, ?_⟩
  · simp [mergeSet]
  · intro hnone
    simp [hnone, hold]
  · intro hsome
    rcases hnew : newDoc f with _ | v
    · exact absurd hnew hsome
    · simp [hnew]
  · simp [mergeSet, hk]

/-- C8 witness: upserting a price document over a stored record keeps the
stored `pieces` field, which is absent from the new record. -/
theorem merge_upsert_preserves_absent_fields_witness :
    storeW "10307-1_amazon" = some docOld
      ∧ ∃ m, mergeSet storeW "10307-1_amazon" docNew "10307-1_amazon" = some m
          ∧ (docNew "pieces" = none → m "pieces" = docOld "pieces")
          ∧ (docNew "pieces" ≠ none → m "pieces" = docNew "pieces")
          ∧ mergeSet storeW "10307-1_amazon" docNew "10307-1_target"
              = storeW "10307-1_target" :=
  ⟨rfl, merge_upsert_preserves_absent_fields storeW "10307-1_amazon" "10307-1_target"
    "pieces" docNew docOld rfl (by decide)⟩

/-- C9: every catalog item produced by the fetch has availability
`available`, so it always satisfies the `queryAvailable` filter
(availability in {available, retiring_soon}) and the availability half of
the stock-flag rule; the other three states can only enter the store from
outside the pipeline. -/
theorem fetched_items_always_available (u : ℕ → PageOutcome) (s : LegoSet)
    (h : s ∈ (fetchFromRebrickable u).1) :
    s.availability = Availability.available ∧ availableFilter s.availability = true := by
  obtain ⟨raw, hraw⟩ := fetchLoop_mem_normalized u 10 1 s h
  have ha := (normalizeSet_some hraw).1
  exact ⟨ha, by rw [ha]; rfl⟩

set_option maxRecDepth 8000 in
/-- C9 witness: the concrete fetched item is available. -/
theorem fetched_items_always_available_witness :
    itemSmall ∈ (fetchFromRebrickable upstreamSmall).1
      ∧ itemSmall.availability = Availability.available
      ∧ availableFilter itemSmall.availability = true :=
  ⟨by decide, fetched_items_always_available upstreamSmall itemSmall (by decide)⟩

/-- C10: every catalog item produced by the fetch has a strictly positive
reference price, and every observation the generator derives from such an
item carries that price as its reference, so the percent-off division is
never a division by zero. -/
theorem fetched_items_positive_reference_price (u : ℕ → PageOutcome) (s : LegoSet)
    (h : s ∈ (fetchFromRebrickable u).1) :
    0 < s.price
      ∧ ∀ (r : String) (now : ℤ) (g : List ℚ),
        (generateSimulatedPrice s r now g).1.originalPrice = s.price
          ∧ (generateSimulatedPrice s r now g).1.originalPrice ≠ 0 := by
  obtain ⟨raw, hraw⟩ := fetchLoop_mem_normalized u 10 1 s h
  have h2 := (normalizeSet_some hraw).2
  have hpos : 0 < s.price := lt_of_lt_of_le (by norm_num) h2
  refine ⟨hpos, ?_⟩
  intro r now g
  exact ⟨rfl, by rw [show (generateSimulatedPrice s r now g).1.originalPrice
    = s.price from rfl]; exact ne_of_gt hpos⟩

set_option maxRecDepth 8000 in
/-- C10 witness: the concrete fetched item has positive price. -/
theorem fetched_items_positive_reference_price_witness :
    itemSmall ∈ (fetchFromRebrickable upstreamSmall).1 ∧ 0 < itemSmall.price :=
  ⟨by decide,
    (fetched_items_positive_reference_price upstreamSmall itemSmall (by decide)).1⟩

end BrickDeal
